import Mathlib

/-!
Verification of the brand-compliance video-audit pipeline
(`backend/src/graph/nodes.py`, `main.py`, `backend/scripts/index_documents.py`).

Python strings are modelled as `List Char`; `json.loads` is modelled by an
executable JSON parser; the fence-stripping regular expression
of the Auditor node is modelled by an explicit leftmost, backtracking search.
External collaborators (media indexer service, vector store, language model)
are parameters of the node functions, following the collaborator contracts of
the design document.
-/

namespace BrandCompliance

/-- Python strings are modelled as lists of characters. -/
abbrev Str := List Char

/-- The backtick character (code point 96). -/
def backtickChar : Char := Char.ofNat 96

/-- The left-brace character (code point 123). -/
def lbraceChar : Char := Char.ofNat 123

/-- The right-brace character (code point 125). -/
def rbraceChar : Char := Char.ofNat 125

/-- Python substring containment test: `pat in s`. -/
def pyIn (pat : Str) : Str → Bool
  | [] => pat.isEmpty
  | c :: rest => pat.isPrefixOf (c :: rest) || pyIn pat rest

/-- Split `s` at the first occurrence of `pat`:
`splitAtOcc pat s = some (pre, post)` means `s = pre ++ pat ++ post` and
`pat` does not occur earlier. `none` when `pat` does not occur in `s`. -/
def splitAtOcc (pat : Str) : Str → Option (Str × Str)
  | [] => if pat.isEmpty then some ([], []) else none
  | c :: rest =>
    if pat.isPrefixOf (c :: rest) then some ([], List.drop pat.length (c :: rest))
    else (splitAtOcc pat rest).map (fun p => (c :: p.1, p.2))

/-- Number of positions at which `pat` occurs in `s` (overlaps counted). -/
def countOcc (pat : Str) : Str → Nat
  | [] => 0
  | c :: rest => (if pat.isPrefixOf (c :: rest) then 1 else 0) + countOcc pat rest

/-- The whitespace characters removed by Python `str.strip()`. -/
def isPyWs (c : Char) : Bool :=
  c = ' ' || c = '\t' || c = '\n' || c = '\r' || c = '\x0b' || c = '\x0c'

/-- Python `str.strip()`: drop leading and trailing whitespace. -/
def pyStrip (s : Str) : Str :=
  ((s.dropWhile isPyWs).reverse.dropWhile isPyWs).reverse

/-- Python `sep.join(xs)`. -/
def pyJoin (sep : Str) : List Str → Str
  | [] => []
  | [x] => x
  | x :: y :: rest => x ++ sep ++ pyJoin sep (y :: rest)

/-! ## JSON values and a model of `json.loads` -/

/-- JSON values as produced by Python `json.loads`.  Numbers keep their
source lexeme (the claims never compute with numeric values, so no
floating-point semantics is needed). -/
inductive Json where
  | null
  | bool (b : Bool)
  | num (lexeme : Str)
  | str (s : Str)
  | arr (elems : List Json)
  | obj (fields : List (Str × Json))

/-- JSON structural whitespace. -/
def isJsonWs (c : Char) : Bool :=
  c = ' ' || c = '\t' || c = '\n' || c = '\r'

/-- Drop leading JSON whitespace. -/
def skipWs : Str → Str
  | [] => []
  | c :: rest => if isJsonWs c then skipWs rest else c :: rest

/-- Value of a hexadecimal digit. -/
def hexVal (c : Char) : Option Nat :=
  if '0' ≤ c ∧ c ≤ '9' then some (c.toNat - 48)
  else if 'a' ≤ c ∧ c ≤ 'f' then some (c.toNat - 87)
  else if 'A' ≤ c ∧ c ≤ 'F' then some (c.toNat - 55)
  else none

/-- Decimal digit test. -/
def isDigitChar (c : Char) : Bool := '0' ≤ c && c ≤ '9'

/-- Take the longest run of leading decimal digits. -/
def spanDigits : Str → Str × Str
  | [] => ([], [])
  | c :: rest =>
    if isDigitChar c then
      let p := spanDigits rest
      (c :: p.1, p.2)
    else ([], c :: rest)

/-- Parse the body of a JSON string (after the opening quote), decoding
escapes; strict mode: raw control characters are rejected.  Returns the
decoded characters and the input after the closing quote. -/
def parseStringBody : Nat → Str → Option (Str × Str)
  | 0, _ => none
  | _, [] => none
  | fuel + 1, c :: rest =>
    if c = '"' then some ([], rest)
    else if c = '\\' then
      match rest with
      | [] => none
      | e :: rest2 =>
        let dec : Option (Char × Str) :=
          if e = '"' then some ('"', rest2)
          else if e = '\\' then some ('\\', rest2)
          else if e = '/' then some ('/', rest2)
          else if e = 'b' then some ('\x08', rest2)
          else if e = 'f' then some ('\x0c', rest2)
          else if e = 'n' then some ('\n', rest2)
          else if e = 'r' then some ('\r', rest2)
          else if e = 't' then some ('\t', rest2)
          else if e = 'u' then
            match rest2 with
            | h1 :: h2 :: h3 :: h4 :: rest3 =>
              match hexVal h1, hexVal h2, hexVal h3, hexVal h4 with
              | some a, some b, some c2, some d =>
                some (Char.ofNat (((a * 16 + b) * 16 + c2) * 16 + d), rest3)
              | _, _, _, _ => none
            | _ => none
          else none
        match dec with
        | some (ch, r) => (parseStringBody fuel r).map (fun p => (ch :: p.1, p.2))
        | none => none
    else if c.toNat < 32 then none
    else (parseStringBody fuel rest).map (fun p => (c :: p.1, p.2))

/-- Parse the optional fraction part of a JSON number. -/
def parseFrac : Str → Option (Str × Str)
  | '.' :: rest =>
    match spanDigits rest with
    | ([], _) => none
    | (ds, r) => some ('.' :: ds, r)
  | s => some ([], s)

/-- Parse the optional exponent part of a JSON number. -/
def parseExp : Str → Option (Str × Str)
  | [] => some ([], [])
  | c :: rest =>
    if c = 'e' ∨ c = 'E' then
      let signed : Str × Str :=
        match rest with
        | '+' :: r => (['+'], r)
        | '-' :: r => (['-'], r)
        | r => ([], r)
      match spanDigits signed.2 with
      | ([], _) => none
      | (ds, r2) => some (c :: (signed.1 ++ ds), r2)
    else some ([], c :: rest)

/-- Parse a JSON number starting at the first character of `s`;
returns the lexeme and the rest. -/
def parseNumber (s : Str) : Option (Str × Str) :=
  let neg : Str × Str :=
    match s with
    | '-' :: r => (['-'], r)
    | r => ([], r)
  match neg.2 with
  | [] => none
  | c :: rest =>
    if ¬ isDigitChar c then none
    else
      let intPart : Option (Str × Str) :=
        if c = '0' then some (['0'], rest)
        else
          let p := spanDigits rest
          some (c :: p.1, p.2)
      match intPart with
      | none => none
      | some (ip, r1) =>
        match parseFrac r1 with
        | none => none
        | some (fp, r2) =>
          match parseExp r2 with
          | none => none
          | some (ep, r3) => some (neg.1 ++ ip ++ fp ++ ep, r3)

mutual

/-- Parse one JSON value (model of the recursive-descent decoder used by
Python `json.loads`, including the default non-finite literals). -/
def parseValue : Nat → Str → Option (Json × Str)
  | 0, _ => none
  | fuel + 1, s =>
    match skipWs s with
    | [] => none
    | c :: rest =>
      if c = '"' then
        (parseStringBody (fuel + 1) rest).map (fun p => (Json.str p.1, p.2))
      else if c = lbraceChar then parseObjBody fuel rest
      else if c = '[' then parseArrBody fuel rest
      else if c = 't' then
        if ("rue".toList).isPrefixOf rest then some (Json.bool true, rest.drop 3) else none
      else if c = 'f' then
        if ("alse".toList).isPrefixOf rest then some (Json.bool false, rest.drop 4) else none
      else if c = 'n' then
        if ("ull".toList).isPrefixOf rest then some (Json.null, rest.drop 3) else none
      else if c = 'N' then
        if ("aN".toList).isPrefixOf rest then some (Json.num ("NaN".toList), rest.drop 2) else none
      else if c = 'I' then
        if ("nfinity".toList).isPrefixOf rest then
          some (Json.num ("Infinity".toList), rest.drop 7)
        else none
      else if c = '-' then
        if ("Infinity".toList).isPrefixOf rest then
          some (Json.num ("-Infinity".toList), rest.drop 8)
        else
          (parseNumber (c :: rest)).map (fun p => (Json.num p.1, p.2))
      else
        (parseNumber (c :: rest)).map (fun p => (Json.num p.1, p.2))

/-- Parse the body of a JSON object, after the opening brace. -/
def parseObjBody : Nat → Str → Option (Json × Str)
  | 0, _ => none
  | fuel + 1, s =>
    match skipWs s with
    | [] => none
    | c :: rest =>
      if c = rbraceChar then some (Json.obj [], rest)
      else parseMembers fuel (c :: rest) []

/-- Parse the members of a JSON object (key-value pairs, comma separated,
terminated by the closing brace). -/
def parseMembers : Nat → Str → List (Str × Json) → Option (Json × Str)
  | 0, _, _ => none
  | fuel + 1, s, acc =>
    match skipWs s with
    | '"' :: rest =>
      match parseStringBody (fuel + 1) rest with
      | none => none
      | some (key, r1) =>
        match skipWs r1 with
        | ':' :: r2 =>
          match parseValue fuel r2 with
          | none => none
          | some (v, r3) =>
            match skipWs r3 with
            | ',' :: r4 => parseMembers fuel r4 (acc ++ [(key, v)])
            | c :: r4 =>
              if c = rbraceChar then some (Json.obj (acc ++ [(key, v)]), r4) else none
            | [] => none
        | _ => none
    | _ => none

/-- Parse the body of a JSON array, after the opening bracket. -/
def parseArrBody : Nat → Str → Option (Json × Str)
  | 0, _ => none
  | fuel + 1, s =>
    match skipWs s with
    | [] => none
    | c :: rest =>
      if c = ']' then some (Json.arr [], rest)
      else parseElems fuel (c :: rest) []

/-- Parse the elements of a JSON array (comma separated, terminated by the
closing bracket). -/
def parseElems : Nat → Str → List Json → Option (Json × Str)
  | 0, _, _ => none
  | fuel + 1, s, acc =>
    match parseValue fuel s with
    | none => none
    | some (v, r1) =>
      match skipWs r1 with
      | ',' :: r2 => parseElems fuel r2 (acc ++ [v])
      | ']' :: r2 => some (Json.arr (acc ++ [v]), r2)
      | _ => none

end

/-- Model of Python `json.loads`: parse one value, then require only
whitespace to remain (otherwise Python raises `Extra data`). -/
def jsonLoads (s : Str) : Option Json :=
  match parseValue (4 * s.length + 8) s with
  | some (v, rest) => if skipWs rest = [] then some v else none
  | none => none

/-- Python `dict` lookup for a dictionary built by `json.loads` from a member
list: a later duplicate key overrides an earlier one, so the LAST binding
wins. -/
def dictLookup (fields : List (Str × Json)) (key : Str) : Option Json :=
  match fields with
  | [] => none
  | (k, v) :: rest =>
    match dictLookup rest key with
    | some r => some r
    | none => if k = key then some v else none

/-- Python `dict.get(key, default)`. -/
def dictGet (fields : List (Str × Json)) (key : Str) (dflt : Json) : Json :=
  match dictLookup fields key with
  | some v => v
  | none => dflt

/-! ## The fence-stripping regular expression

The Auditor node runs
`re.search(r"` ``` `(?:json)?(.*?)` ``` `", content, re.DOTALL)` and takes
`.group(1)`.  The model below reproduces the leftmost search and the
backtracking over the optional `json` tag. -/

/-- The three-backtick fence marker. -/
def fenceChars : Str := [backtickChar, backtickChar, backtickChar]

/-- The optional `json` tag after the opening fence. -/
def jsonTagChars : Str := "json".toList

/-- Try to match the fence pattern at the very start of `s`: an opening
fence, a greedy optional `json` tag (with backtracking), then a non-greedy
captured group up to the next closing fence.  Returns the captured group. -/
def fenceMatchAt (s : Str) : Option Str :=
  if fenceChars.isPrefixOf s then
    let afterOpen := s.drop 3
    if jsonTagChars.isPrefixOf afterOpen then
      match splitAtOcc fenceChars (afterOpen.drop 4) with
      | some p => some p.1
      | none =>
        match splitAtOcc fenceChars afterOpen with
        | some p => some p.1
        | none => none
    else
      match splitAtOcc fenceChars afterOpen with
      | some p => some p.1
      | none => none
  else none

/-- Model of `re.search`: try the pattern at each start position, leftmost first;
return `group(1)` of the first match. -/
def reSearchFence : Str → Option Str
  | [] => none
  | c :: rest =>
    match fenceMatchAt (c :: rest) with
    | some g => some g
    | none => reSearchFence rest

/-! ## String constants of the two nodes -/

/-- The string `FAIL`. -/
def failChars : Str := "FAIL".toList

/-- The string `PASS`. -/
def passChars : Str := "PASS".toList

/-- The response key `status`. -/
def statusKey : Str := "status".toList

/-- The response key `compliance_results`. -/
def crKey : Str := "compliance_results".toList

/-- The response key `final_report`. -/
def reportKey : Str := "final_report".toList

/-- Fallback report when the parsed response has no `final_report` field. -/
def noReportChars : Str := "No report generated.".toList

/-- Report produced when the Auditor skips because the transcript is empty. -/
def skipReportChars : Str :=
  "Audit skipped because video processing failed (No Transcript).".toList

/-- Message of the exception raised by the Indexer on a non-YouTube URL. -/
def urlErrChars : Str := "Please provide a valid YouTube URL for this test.".toList

/-- The substring `youtube.com` tested against the video URL. -/
def ytComChars : Str := "youtube.com".toList

/-- The substring `youtu.be` tested against the video URL. -/
def ytBeChars : Str := "youtu.be".toList

/-- Message of the `AttributeError` raised when `re.search` returns `None`
and the code calls `.group(1)` on it (exact Python wording abbreviated). -/
def attrGroupMsg : Str :=
  "AttributeError: NoneType object has no attribute group".toList

/-- Message of the `json.JSONDecodeError` raised on invalid JSON (the exact
Python wording depends on the failure position; abbreviated). -/
def jsonDecodeMsg : Str :=
  "JSONDecodeError: invalid JSON in model response".toList

/-- Message of the `AttributeError` raised when the parsed JSON value is not
a dictionary and the code calls `.get` on it (exact Python wording
abbreviated). -/
def noGetMsg : Str :=
  "AttributeError: parsed JSON value has no attribute get".toList

/-! ## Audit state and partial state updates -/

/-- The audit state threaded through the pipeline (`VideoAuditState`).
`final_status`, `final_report` and the fields of `compliance_results` carry
raw JSON values, because the Auditor node stores whatever the parsed model
response contained, without validating types. -/
structure AuditState where
  video_url : Str := []
  video_id : Str := []
  transcript : Str := []
  ocr_text : List Str := []
  video_metadata : List (Str × Json) := []
  compliance_results : Json := Json.arr []
  final_status : Option Json := none
  final_report : Option Json := none
  errors : List Str := []

/-- A partial state update returned by a node: `none` / `[]` fields are
absent from the returned dictionary and leave the state untouched;
`errors` entries are appended by the graph merge. -/
structure StateUpdate where
  transcript : Option Str := none
  ocr_text : Option (List Str) := none
  video_metadata : Option (List (Str × Json)) := none
  compliance_results : Option Json := none
  final_status : Option Json := none
  final_report : Option Json := none
  errors : List Str := []

/-! ## Node 1: the Indexer (`index_video_node`) -/

/-- Modelled from the spec: the result of `VideoIndexerService.extract_data`
(file `backend/src/services/video_indexer.py`, not part of the analysed
sources) — the structured insights `{transcript, ocr_text, video_metadata}`
per the Media Extraction Client contract. -/
structure ExtractData where
  transcript : Str
  ocr_text : List Str
  video_metadata : List (Str × Json)

/-- Modelled from the spec: the four-call contract of the external media
indexer collaborator (`download`, `upload`, `wait_for_processing`,
`extract_data`), plus the `VideoIndexerService()` constructor; each call
either returns or raises an exception carrying a message. -/
structure IndexerEnv where
  init : Except Str Unit
  download : Str → Except Str Str
  upload : Str → Str → Except Str Str
  wait : Str → Except Str Json
  extract : Json → Except Str ExtractData

/-- The call chain inside the `try` block of `index_video_node`: construct
the service, check the URL (raising on a non-YouTube URL), download, upload,
wait for processing, extract the insights. -/
def indexChain (env : IndexerEnv) (s : AuditState) : Except Str ExtractData := do
  let _ ← env.init
  let localPath ←
    if pyIn ytComChars s.video_url || pyIn ytBeChars s.video_url then
      env.download s.video_url
    else Except.error urlErrChars
  let azureId ← env.upload localPath s.video_id
  let raw ← env.wait azureId
  env.extract raw

/-- Node `index_video_node`: return the extracted insights, or on any exception
in the chain the recovery dictionary
`{errors: [message], final_status: FAIL, transcript: "", ocr_text: []}`. -/
def index_video_node (env : IndexerEnv) (s : AuditState) : StateUpdate :=
  match indexChain env s with
  | Except.ok d =>
    { transcript := some d.transcript
      ocr_text := some d.ocr_text
      video_metadata := some d.video_metadata }
  | Except.error e =>
    { errors := [e]
      final_status := some (Json.str failChars)
      transcript := some []
      ocr_text := some [] }

/-! ## Node 2: the Auditor (`audit_content_node`) -/

/-- The markdown-cleaning step: if the raw response contains a fence marker,
replace it by `group(1)` of the regex search; a failed search raises an
`AttributeError` (calling `.group` on `None`). -/
def extractContent (raw : Str) : Except Str Str :=
  if pyIn fenceChars raw then
    match reSearchFence raw with
    | some g => Except.ok g
    | none => Except.error attrGroupMsg
  else Except.ok raw

/-- Fence-cleaning followed by `json.loads(content.strip())`. -/
def extractAndLoad (raw : Str) : Except Str Json :=
  match extractContent raw with
  | Except.error e => Except.error e
  | Except.ok content =>
    match jsonLoads (pyStrip content) with
    | some j => Except.ok j
    | none => Except.error jsonDecodeMsg

/-- The response-parsing tail of `audit_content_node`: on a parsed
dictionary build the verdict triple with `dict.get` defaults; every failure
(unpaired fence, invalid JSON, non-dictionary value) is caught by the
`except` clause, which records the message and sets `final_status = FAIL`. -/
def parseAudit (raw : Str) : StateUpdate :=
  match extractAndLoad raw with
  | Except.ok (Json.obj fields) =>
    { compliance_results := some (dictGet fields crKey (Json.arr []))
      final_status := some (dictGet fields statusKey (Json.str failChars))
      final_report := some (dictGet fields reportKey (Json.str noReportChars)) }
  | Except.ok _ =>
    { errors := [noGetMsg], final_status := some (Json.str failChars) }
  | Except.error e =>
    { errors := [e], final_status := some (Json.str failChars) }

/-- The retrieval query built by the Auditor:
`f"TRANSCRIPT OCRJOINED"` i.e. the transcript, one space, then the OCR
strings joined by single spaces. -/
def buildQuery (transcript : Str) (ocr : List Str) : Str :=
  transcript ++ [' '] ++ pyJoin [' '] ocr

/-- What a run of `audit_content_node` did: whether the language model was
invoked, which query (and `k`) was passed to the vector store similarity
search, and the returned partial state update. -/
structure AuditTrace where
  llmInvoked : Bool
  searchQuery : Option (Str × Nat)
  update : StateUpdate

/-- Node `audit_content_node`: on an empty transcript skip everything and report
the fixed FAIL verdict; otherwise query the vector store with the combined
text at `k = 3`, invoke the model, and parse the response.  `llm` is the
outcome of the model invocation (`Except.error` models an exception raised
by the call, which the `except` clause converts into the recovery
dictionary). -/
def audit_content_node (s : AuditState) (llm : Except Str Str) : AuditTrace :=
  if s.transcript = [] then
    { llmInvoked := false
      searchQuery := none
      update :=
        { final_status := some (Json.str failChars)
          final_report := some (Json.str skipReportChars) } }
  else
    { llmInvoked := true
      searchQuery := some (buildQuery s.transcript s.ocr_text, 3)
      update :=
        match llm with
        | Except.error e => { errors := [e], final_status := some (Json.str failChars) }
        | Except.ok raw => parseAudit raw }

/-! ## The pipeline driver -/

/-- Modelled from the spec: the graph merge of a node's partial output into
the shared `VideoAuditState` (files `backend/src/graph/state.py` and
`backend/src/graph/workflow.py`, not part of the analysed sources) — each
returned field overwrites the state field, except `errors`, which is an
append-only accumulator. -/
def applyUpdate (s : AuditState) (u : StateUpdate) : AuditState :=
  { video_url := s.video_url
    video_id := s.video_id
    transcript := u.transcript.getD s.transcript
    ocr_text := u.ocr_text.getD s.ocr_text
    video_metadata := u.video_metadata.getD s.video_metadata
    compliance_results := u.compliance_results.getD s.compliance_results
    final_status := match u.final_status with
      | some v => some v
      | none => s.final_status
    final_report := match u.final_report with
      | some v => some v
      | none => s.final_report
    errors := s.errors ++ u.errors }

/-- Modelled from the spec: the pipeline driver
(`START → Indexer → Auditor → END`), merging each stage's partial output
into the shared state. -/
def runPipeline (env : IndexerEnv) (llm : Except Str Str) (s0 : AuditState) :
    AuditState :=
  applyUpdate (applyUpdate s0 (index_video_node env s0))
    (audit_content_node (applyUpdate s0 (index_video_node env s0)) llm).update

/-! ## Concrete inputs used by witnesses and counterexamples -/

/-- The string `Clean`. -/
def cleanChars : Str := "Clean".toList

/-- The string `Hi`. -/
def hiChars : Str := "Hi".toList

/-- The string `MAYBE`. -/
def maybeChars : Str := "MAYBE".toList

/-- The string `boom`, a sample exception message. -/
def boomChars : Str := "boom".toList

/-- The fence-wrapped clean verdict of the design document's test property:
a triple-backtick fence tagged `json` around
`\x7b"status":"PASS","compliance_results":[],"final_report":"Clean"\x7d`. -/
def c4Raw : Str :=
  "```json\n\x7b\"status\":\"PASS\",\"compliance_results\":[],\"final_report\":\"Clean\"\x7d\n```".toList

/-- The expected captured group of the fence search on `c4Raw`. -/
def c4Group : Str :=
  "\n\x7b\"status\":\"PASS\",\"compliance_results\":[],\"final_report\":\"Clean\"\x7d\n".toList

/-- The clean verdict surrounded by prose outside the fence. -/
def c4Wrapped : Str :=
  ("Here is the verdict: ".toList) ++ c4Raw ++ (" Hope this helps.".toList)

/-- A bare JSON object response carrying only `final_report`. -/
def c5Raw : Str := "\x7b\"final_report\":\"Hi\"\x7d".toList

/-- A bare JSON object response whose `status` field is neither PASS nor
FAIL. -/
def c7Raw : Str := "\x7b\"status\":\"MAYBE\"\x7d".toList

/-- A response that is valid JSON as a whole but contains a single fence
marker (inside a JSON string literal). -/
def c10Raw : Str := "\x7b\"status\":\"PASS\",\"final_report\":\"```\"\x7d".toList

/-- A state whose extraction succeeded with a non-empty transcript. -/
def stateT : AuditState := { transcript := "talk".toList }

/-- An indexer environment in which every collaborator call succeeds. -/
def env0 : IndexerEnv :=
  { init := Except.ok ()
    download := fun _ => Except.ok []
    upload := fun _ _ => Except.ok []
    wait := fun _ => Except.ok Json.null
    extract := fun _ => Except.ok ⟨[], [], []⟩ }

/-- An indexer environment whose service constructor raises. -/
def envBad : IndexerEnv := { env0 with init := Except.error boomChars }

/-- An initial state carrying a non-YouTube video URL. -/
def s0bad : AuditState := { video_url := "ftp://host/video".toList }

/-! ## Helper lemmas -/

/-- Python `dict.get` is lookup-with-default. -/
theorem dictGet_eq (fields : List (Str × Json)) (k : Str) (d : Json) :
    dictGet fields k d = (dictLookup fields k).getD d := by
  unfold dictGet
  cases dictLookup fields k <;> rfl

/-- The source's space-join is list intercalation. -/
theorem pyJoin_eq_intercalate (sep : Str) :
    ∀ xs : List Str, pyJoin sep xs = List.intercalate sep xs
  | [] => by simp [pyJoin, List.intercalate, List.intersperse]
  | [x] => by simp [pyJoin, List.intercalate, List.intersperse]
  | x :: y :: rest => by
    rw [pyJoin, pyJoin_eq_intercalate sep (y :: rest)]
    simp [List.intercalate, List.intersperse, List.append_assoc]

/-- Equation for `index_video_node` when the chain succeeds. -/
theorem index_node_ok (env : IndexerEnv) (s : AuditState) (d : ExtractData)
    (h : indexChain env s = Except.ok d) :
    index_video_node env s =
      { transcript := some d.transcript
        ocr_text := some d.ocr_text
        video_metadata := some d.video_metadata } := by
  unfold index_video_node
  rw [h]

/-- Equation for `index_video_node` when the chain raises. -/
theorem index_node_error (env : IndexerEnv) (s : AuditState) (e : Str)
    (h : indexChain env s = Except.error e) :
    index_video_node env s =
      { errors := [e]
        final_status := some (Json.str failChars)
        transcript := some []
        ocr_text := some [] } := by
  unfold index_video_node
  rw [h]

/-- Equation for `audit_content_node` when the transcript is empty: the
skip branch. -/
theorem audit_node_skip (s : AuditState) (llm : Except Str Str)
    (h : s.transcript = []) :
    audit_content_node s llm =
      { llmInvoked := false
        searchQuery := none
        update := { final_status := some (Json.str failChars)
                    final_report := some (Json.str skipReportChars) } } := by
  unfold audit_content_node
  rw [h]
  simp

/-- Equation for the update of `audit_content_node` when the transcript is
non-empty and the model invocation returns a response. -/
theorem audit_update_ok (s : AuditState) (raw : Str) (h : s.transcript ≠ []) :
    (audit_content_node s (Except.ok raw)).update = parseAudit raw := by
  unfold audit_content_node
  rw [if_neg h]

/-- Equation for the update of `audit_content_node` when the transcript is
non-empty and the model invocation raises. -/
theorem audit_update_err (s : AuditState) (e : Str) (h : s.transcript ≠ []) :
    (audit_content_node s (Except.error e)).update =
      { errors := [e], final_status := some (Json.str failChars) } := by
  unfold audit_content_node
  rw [if_neg h]

/-- Equation for `audit_content_node` when the transcript is non-empty. -/
theorem audit_node_run (s : AuditState) (llm : Except Str Str)
    (h : s.transcript ≠ []) :
    audit_content_node s llm =
      { llmInvoked := true
        searchQuery := some (buildQuery s.transcript s.ocr_text, 3)
        update :=
          match llm with
          | Except.error e => { errors := [e], final_status := some (Json.str failChars) }
          | Except.ok raw => parseAudit raw } := by
  unfold audit_content_node
  rw [if_neg h]

/-- Equation for `parseAudit` when the cleaning or decoding step raises. -/
theorem parseAudit_error (raw e : Str) (h : extractAndLoad raw = Except.error e) :
    parseAudit raw = { errors := [e], final_status := some (Json.str failChars) } := by
  unfold parseAudit
  rw [h]

/-- Equation for `parseAudit` when the decoded value is a dictionary. -/
theorem parseAudit_obj (raw : Str) (fields : List (Str × Json))
    (h : extractAndLoad raw = Except.ok (Json.obj fields)) :
    parseAudit raw =
      { compliance_results := some (dictGet fields crKey (Json.arr []))
        final_status := some (dictGet fields statusKey (Json.str failChars))
        final_report := some (dictGet fields reportKey (Json.str noReportChars)) } := by
  unfold parseAudit
  rw [h]

/-- Equation for `parseAudit` when the decoded value is not a dictionary. -/
theorem parseAudit_nonobj (raw : Str) (j : Json)
    (h : extractAndLoad raw = Except.ok j) (hj : ∀ fields, j ≠ Json.obj fields) :
    parseAudit raw = { errors := [noGetMsg], final_status := some (Json.str failChars) } := by
  unfold parseAudit
  rw [h]
  cases j with
  | obj fields => exact absurd rfl (hj fields)
  | null => rfl
  | bool b => rfl
  | num l => rfl
  | str s => rfl
  | arr es => rfl

/-- Unfolding equation for `countOcc` on a non-empty string. -/
theorem countOcc_cons (pat : Str) (c : Char) (rest : Str) :
    countOcc pat (c :: rest) =
      (if pat.isPrefixOf (c :: rest) then 1 else 0) + countOcc pat rest := rfl

/-- Dropping characters cannot create occurrences. -/
theorem countOcc_drop_zero (pat : Str) :
    ∀ (s : Str) (n : Nat), countOcc pat s = 0 → countOcc pat (List.drop n s) = 0
  | _, 0, h => h
  | [], _ + 1, _ => by simp [countOcc]
  | c :: rest, n + 1, h => by
    have hr : countOcc pat rest = 0 := by
      rw [countOcc_cons] at h
      omega
    rw [List.drop_succ_cons]
    exact countOcc_drop_zero pat rest n hr

/-- With no occurrence, the first-occurrence split fails. -/
theorem splitAtOcc_none {pat : Str} (hpat : pat ≠ []) :
    ∀ s, countOcc pat s = 0 → splitAtOcc pat s = none := by
  intro s
  induction s with
  | nil =>
    intro _
    cases pat with
    | nil => exact absurd rfl hpat
    | cons p ps => rfl
  | cons c rest ih =>
    intro h
    rw [countOcc_cons] at h
    have hp : pat.isPrefixOf (c :: rest) = false := by
      cases hp : pat.isPrefixOf (c :: rest)
      · rfl
      · rw [hp] at h; simp at h
    have hr : countOcc pat rest = 0 := by rw [hp] at h; simpa using h
    simp [splitAtOcc, hp, ih hr]

/-- With no occurrence of the fence marker, the regex search fails. -/
theorem reSearchFence_none_of_zero :
    ∀ s, countOcc fenceChars s = 0 → reSearchFence s = none := by
  intro s
  induction s with
  | nil => intro _; rfl
  | cons c rest ih =>
    intro h
    rw [countOcc_cons] at h
    have hp : fenceChars.isPrefixOf (c :: rest) = false := by
      cases hp : fenceChars.isPrefixOf (c :: rest)
      · rfl
      · rw [hp] at h; simp at h
    have hr : countOcc fenceChars rest = 0 := by rw [hp] at h; simpa using h
    simp [reSearchFence, fenceMatchAt, hp]
    exact ih hr

/-- With exactly one occurrence of the fence marker (an unpaired fence),
the regex search fails: a match needs an occurrence for the opening marker
and a later one for the closing marker. -/
theorem reSearchFence_none_of_one :
    ∀ s, countOcc fenceChars s = 1 → reSearchFence s = none := by
  intro s
  induction s with
  | nil => intro h; simp [countOcc] at h
  | cons c rest ih =>
    intro h
    rw [countOcc_cons] at h
    cases hp : fenceChars.isPrefixOf (c :: rest) with
    | true =>
      have hr : countOcc fenceChars rest = 0 := by rw [hp] at h; simpa using h
      have h3 : countOcc fenceChars (List.drop 2 rest) = 0 :=
        countOcc_drop_zero _ rest 2 hr
      have h4 : countOcc fenceChars (List.drop 6 rest) = 0 :=
        countOcc_drop_zero _ rest 6 hr
      have hs1 : splitAtOcc fenceChars (List.drop 2 rest) = none :=
        splitAtOcc_none (by decide) _ h3
      have hs2 : splitAtOcc fenceChars (List.drop 6 rest) = none :=
        splitAtOcc_none (by decide) _ h4
      have hafter : List.drop 3 (c :: rest) = List.drop 2 rest := rfl
      have hm : fenceMatchAt (c :: rest) = none := by
        unfold fenceMatchAt
        rw [hp, hafter]
        cases hj : jsonTagChars.isPrefixOf (List.drop 2 rest) with
        | true => simp [hj, hs1, hs2]
        | false => simp [hj, hs1]
      simp [reSearchFence, hm]
      exact reSearchFence_none_of_zero rest hr
    | false =>
      have hr : countOcc fenceChars rest = 1 := by rw [hp] at h; simpa using h
      have hm : fenceMatchAt (c :: rest) = none := by
        simp [fenceMatchAt, hp]
      simp [reSearchFence, hm]
      exact ih hr

/-- An occurrence makes the Python containment test true. -/
theorem pyIn_of_countOcc_ne_zero {pat : Str} :
    ∀ {s : Str}, countOcc pat s ≠ 0 → pyIn pat s = true := by
  intro s
  induction s with
  | nil => intro h; simp [countOcc] at h
  | cons c rest ih =>
    intro h
    cases hp : pat.isPrefixOf (c :: rest) with
    | true => simp [pyIn, hp]
    | false =>
      have hne : countOcc pat rest ≠ 0 := by
        rw [countOcc_cons, hp] at h
        simpa using h
      simp [pyIn, hp, ih hne]

/-- Pipeline equation when the extraction chain raises: the Auditor then
sees an empty transcript and skips. -/
theorem runPipeline_indexError (env : IndexerEnv) (llm : Except Str Str)
    (s0 : AuditState) (e : Str) (h : indexChain env s0 = Except.error e) :
    runPipeline env llm s0 =
      applyUpdate
        (applyUpdate s0
          { errors := [e]
            final_status := some (Json.str failChars)
            transcript := some []
            ocr_text := some [] })
        { final_status := some (Json.str failChars)
          final_report := some (Json.str skipReportChars) } := by
  unfold runPipeline
  rw [index_node_error env s0 e h]
  rw [audit_node_skip
    (applyUpdate s0
      { errors := [e]
        final_status := some (Json.str failChars)
        transcript := some []
        ocr_text := some [] }) llm rfl]

/-- Pipeline equation when extraction succeeds but yields an empty
transcript: the Auditor skips. -/
theorem runPipeline_okSkip (env : IndexerEnv) (llm : Except Str Str)
    (s0 : AuditState) (d : ExtractData) (hc : indexChain env s0 = Except.ok d)
    (ht : d.transcript = []) :
    runPipeline env llm s0 =
      applyUpdate
        (applyUpdate s0
          { transcript := some d.transcript
            ocr_text := some d.ocr_text
            video_metadata := some d.video_metadata })
        { final_status := some (Json.str failChars)
          final_report := some (Json.str skipReportChars) } := by
  unfold runPipeline
  rw [index_node_ok env s0 d hc]
  rw [audit_node_skip
    (applyUpdate s0
      { transcript := some d.transcript
        ocr_text := some d.ocr_text
        video_metadata := some d.video_metadata }) llm ht]

/-- Pipeline equation when extraction succeeds with a non-empty transcript
and the model invocation raises. -/
theorem runPipeline_okRunErr (env : IndexerEnv) (s0 : AuditState)
    (d : ExtractData) (e : Str) (hc : indexChain env s0 = Except.ok d)
    (ht : d.transcript ≠ []) :
    runPipeline env (Except.error e) s0 =
      applyUpdate
        (applyUpdate s0
          { transcript := some d.transcript
            ocr_text := some d.ocr_text
            video_metadata := some d.video_metadata })
        { errors := [e], final_status := some (Json.str failChars) } := by
  unfold runPipeline
  rw [index_node_ok env s0 d hc]
  rw [audit_update_err
    (applyUpdate s0
      { transcript := some d.transcript
        ocr_text := some d.ocr_text
        video_metadata := some d.video_metadata }) e ht]

/-- Pipeline equation when extraction succeeds with a non-empty transcript
and the model invocation returns a response. -/
theorem runPipeline_okRunOk (env : IndexerEnv) (s0 : AuditState)
    (d : ExtractData) (raw : Str) (hc : indexChain env s0 = Except.ok d)
    (ht : d.transcript ≠ []) :
    runPipeline env (Except.ok raw) s0 =
      applyUpdate
        (applyUpdate s0
          { transcript := some d.transcript
            ocr_text := some d.ocr_text
            video_metadata := some d.video_metadata })
        (parseAudit raw) := by
  unfold runPipeline
  rw [index_node_ok env s0 d hc]
  rw [audit_update_ok
    (applyUpdate s0
      { transcript := some d.transcript
        ocr_text := some d.ocr_text
        video_metadata := some d.video_metadata }) raw ht]

/-! ## Claims -/

/-- C1: for every raw model response string fed to the Judgment-stage
response parser, either a well-formed triple
`(compliance_results, final_status, final_report)` is produced with
`errors` untouched, or exactly one new entry is recorded for `errors`,
`final_status` is set to FAIL, and `compliance_results` and `final_report`
are left untouched (absent from the returned update). -/
theorem claim_C1_parser_dichotomy (raw : Str) :
    (∃ cr st rp, parseAudit raw =
      { compliance_results := some cr
        final_status := some st
        final_report := some rp }) ∨
    (∃ e, parseAudit raw =
      { errors := [e]
        final_status := some (Json.str failChars) }) := by
  unfold parseAudit
  cases hel : extractAndLoad raw with
  | error e => exact Or.inr ⟨e, rfl⟩
  | ok j =>
    cases j with
    | obj fields => exact Or.inl ⟨_, _, _, rfl⟩
    | null => exact Or.inr ⟨noGetMsg, rfl⟩
    | bool b => exact Or.inr ⟨noGetMsg, rfl⟩
    | num l => exact Or.inr ⟨noGetMsg, rfl⟩
    | str s => exact Or.inr ⟨noGetMsg, rfl⟩
    | arr es => exact Or.inr ⟨noGetMsg, rfl⟩

/-- C2: for every input state with an empty transcript, the Judgment stage
never invokes the language model and returns exactly `final_status = FAIL`
and the fixed skip report. -/
theorem claim_C2_skip_on_empty_transcript (s : AuditState) (llm : Except Str Str)
    (h : s.transcript = []) :
    audit_content_node s llm =
      { llmInvoked := false
        searchQuery := none
        update := { final_status := some (Json.str failChars)
                    final_report := some (Json.str skipReportChars) } } :=
  audit_node_skip s llm h

/-- Witness for C2 at the default (empty-transcript) state. -/
theorem claim_C2_witness :
    audit_content_node {} (Except.ok []) =
      { llmInvoked := false
        searchQuery := none
        update := { final_status := some (Json.str failChars)
                    final_report := some (Json.str skipReportChars) } } :=
  claim_C2_skip_on_empty_transcript {} (Except.ok []) rfl

/-- C4: on the fence-wrapped clean verdict, the parser extracts the fenced
content (non-greedy, first fence pair), discards any text outside the
fence, and yields `final_status = PASS`, `compliance_results = []`,
`final_report = Clean`. -/
theorem claim_C4_fenced_json_extraction :
    reSearchFence c4Raw = some c4Group ∧
    parseAudit c4Raw =
      { compliance_results := some (Json.arr [])
        final_status := some (Json.str passChars)
        final_report := some (Json.str cleanChars) } ∧
    parseAudit c4Wrapped =
      { compliance_results := some (Json.arr [])
        final_status := some (Json.str passChars)
        final_report := some (Json.str cleanChars) } :=
  ⟨rfl, rfl, rfl⟩

/-- C5: for every model response that parses as a JSON object, the Judgment
stage returns `compliance_results` = the `compliance_results` field if
present else the empty array, `final_status` = the `status` field if
present else FAIL, and `final_report` = the `final_report` field if present
else the fallback string. -/
theorem claim_C5_parse_success_defaults (raw : Str) (fields : List (Str × Json))
    (h : extractAndLoad raw = Except.ok (Json.obj fields)) :
    parseAudit raw =
      { compliance_results := some ((dictLookup fields crKey).getD (Json.arr []))
        final_status := some ((dictLookup fields statusKey).getD (Json.str failChars))
        final_report := some ((dictLookup fields reportKey).getD (Json.str noReportChars)) } := by
  have h2 : parseAudit raw =
      { compliance_results := some (dictGet fields crKey (Json.arr []))
        final_status := some (dictGet fields statusKey (Json.str failChars))
        final_report := some (dictGet fields reportKey (Json.str noReportChars)) } := by
    unfold parseAudit
    rw [h]
  rw [h2, dictGet_eq, dictGet_eq, dictGet_eq]

/-- Witness for C5 at a response carrying only `final_report`. -/
theorem claim_C5_witness :
    parseAudit c5Raw =
      { compliance_results := some (Json.arr [])
        final_status := some (Json.str failChars)
        final_report := some (Json.str hiChars) } :=
  (claim_C5_parse_success_defaults c5Raw [(reportKey, Json.str hiChars)] rfl).trans rfl

/-- C8: for every state with a non-empty transcript, the retrieval query
passed to the vector store is the transcript, one space, then the OCR
strings joined by single spaces, and the similarity search is requested
with `k = 3`. -/
theorem claim_C8_query_and_k (s : AuditState) (llm : Except Str Str)
    (h : s.transcript ≠ []) :
    (audit_content_node s llm).searchQuery =
      some (s.transcript ++ [' '] ++ List.intercalate [' '] s.ocr_text, 3) := by
  unfold audit_content_node
  rw [if_neg h]
  simp [buildQuery, pyJoin_eq_intercalate]

/-- Witness for C8 at a concrete transcript and OCR list. -/
theorem claim_C8_witness :
    (audit_content_node
        { transcript := ("hi".toList), ocr_text := [("on".toList), ("air".toList)] }
        (Except.ok [])).searchQuery = some (("hi on air".toList), 3) :=
  (claim_C8_query_and_k
    { transcript := ("hi".toList), ocr_text := [("on".toList), ("air".toList)] }
    (Except.ok []) (by decide)).trans rfl

/-- C3: whenever any step of the extraction chain fails — and in particular
whenever the service constructor succeeds but the video URL is not a
recognized video-hosting URL — the Extraction stage returns exactly
`(errors = [message], final_status = FAIL, transcript = empty,
ocr_text = [])` rather than raising. -/
theorem claim_C3_extraction_failure_recovery (env : IndexerEnv) (s : AuditState) :
    (∀ e, indexChain env s = Except.error e →
      index_video_node env s =
        { errors := [e]
          final_status := some (Json.str failChars)
          transcript := some []
          ocr_text := some [] }) ∧
    (env.init = Except.ok () → pyIn ytComChars s.video_url = false →
      pyIn ytBeChars s.video_url = false →
      indexChain env s = Except.error urlErrChars) := by
  constructor
  · intro e h
    exact index_node_error env s e h
  · intro h1 h2 h3
    unfold indexChain
    rw [h1, h2, h3]
    rfl

/-- Witness for C3 at an all-succeeding environment and a non-YouTube URL. -/
theorem claim_C3_witness :
    index_video_node env0 s0bad =
      { errors := [urlErrChars]
        final_status := some (Json.str failChars)
        transcript := some []
        ocr_text := some [] } := by
  have h := claim_C3_extraction_failure_recovery env0 s0bad
  exact h.1 urlErrChars (h.2 rfl (by decide) (by decide))

/-- Counterexample to C7: on a parsed response whose `status` field is the
string `MAYBE`, the Judgment stage sets `final_status` to `MAYBE`, which is
neither PASS nor FAIL. -/
theorem claim_C7_counterexample :
    (audit_content_node stateT (Except.ok c7Raw)).update.final_status
        = some (Json.str maybeChars) ∧
    Json.str maybeChars ≠ Json.str passChars ∧
    Json.str maybeChars ≠ Json.str failChars := by
  refine ⟨rfl, ?_, ?_⟩
  · intro h
    injection h with h2
    exact absurd h2 (by decide)
  · intro h
    injection h with h2
    exact absurd h2 (by decide)

/-- C7 as amended: every `final_status` value set by a pipeline stage is
either the string FAIL, or — on a successful Judgment parse only — the raw
`status` field of the parsed response object (defaulting to FAIL when
absent); the code does not constrain the parsed field to PASS/FAIL. -/
theorem claim_C7_amended_status_range (env : IndexerEnv) (s : AuditState)
    (llm : Except Str Str) :
    (∀ v, (index_video_node env s).final_status = some v → v = Json.str failChars) ∧
    (∀ v, (audit_content_node s llm).update.final_status = some v →
      v = Json.str failChars ∨
      ∃ raw fields, llm = Except.ok raw ∧
        extractAndLoad raw = Except.ok (Json.obj fields) ∧
        v = dictGet fields statusKey (Json.str failChars)) := by
  constructor
  · intro v hv
    cases hidx : indexChain env s with
    | ok d =>
      rw [index_node_ok env s d hidx] at hv
      simp at hv
    | error e =>
      rw [index_node_error env s e hidx] at hv
      simp at hv
      exact hv.symm
  · intro v hv
    by_cases ht : s.transcript = []
    · rw [audit_node_skip s llm ht] at hv
      simp at hv
      exact Or.inl hv.symm
    · rw [audit_node_run s llm ht] at hv
      cases llm with
      | error e =>
        simp at hv
        exact Or.inl hv.symm
      | ok raw =>
        simp only at hv
        cases hel : extractAndLoad raw with
        | error e =>
          rw [parseAudit_error raw e hel] at hv
          simp at hv
          exact Or.inl hv.symm
        | ok j =>
          cases j with
          | obj fields =>
            rw [parseAudit_obj raw fields hel] at hv
            simp at hv
            exact Or.inr ⟨raw, fields, rfl, hel, hv.symm⟩
          | null =>
            rw [parseAudit_nonobj raw _ hel (by intro f h; cases h)] at hv
            simp at hv
            exact Or.inl hv.symm
          | bool b =>
            rw [parseAudit_nonobj raw _ hel (by intro f h; cases h)] at hv
            simp at hv
            exact Or.inl hv.symm
          | num l =>
            rw [parseAudit_nonobj raw _ hel (by intro f h; cases h)] at hv
            simp at hv
            exact Or.inl hv.symm
          | str s2 =>
            rw [parseAudit_nonobj raw _ hel (by intro f h; cases h)] at hv
            simp at hv
            exact Or.inl hv.symm
          | arr es =>
            rw [parseAudit_nonobj raw _ hel (by intro f h; cases h)] at hv
            simp at hv
            exact Or.inl hv.symm

/-- Witness for the amended C7: the Extraction failure path sets the FAIL
string. -/
theorem claim_C7_amended_witness :
    Json.str failChars = Json.str failChars :=
  (claim_C7_amended_status_range envBad {} (Except.ok [])).1
    (Json.str failChars) (by rw [index_node_error envBad {} boomChars rfl])

/-- Counterexample to C9: the empty-transcript skip path of the Judgment
stage sets `final_status = FAIL` while leaving `errors` unchanged. -/
theorem claim_C9_counterexample :
    (audit_content_node {} (Except.ok [])).update.final_status
        = some (Json.str failChars) ∧
    (audit_content_node {} (Except.ok [])).update.errors = [] :=
  ⟨rfl, rfl⟩

/-- C9 as amended: every exception-recovery path of the two stages records
exactly one message in `errors` (and sets FAIL); the only paths that set
`final_status` without touching `errors` are the empty-transcript skip and
a successfully parsed response. -/
theorem claim_C9_amended_error_accounting (env : IndexerEnv) (s : AuditState)
    (llm : Except Str Str) :
    (∀ v, (index_video_node env s).final_status = some v →
      ∃ e, (index_video_node env s).errors = [e]) ∧
    ((audit_content_node s llm).update.errors = [] →
      s.transcript = [] ∨
      ∃ raw fields, llm = Except.ok raw ∧
        extractAndLoad raw = Except.ok (Json.obj fields)) ∧
    (∀ e, llm = Except.error e → s.transcript ≠ [] →
      (audit_content_node s llm).update.errors = [e] ∧
      (audit_content_node s llm).update.final_status = some (Json.str failChars)) := by
  refine ⟨?_, ?_, ?_⟩
  · intro v hv
    cases hidx : indexChain env s with
    | ok d =>
      rw [index_node_ok env s d hidx] at hv
      simp at hv
    | error e =>
      exact ⟨e, by rw [index_node_error env s e hidx]⟩
  · intro herr
    by_cases ht : s.transcript = []
    · exact Or.inl ht
    · rw [audit_node_run s llm ht] at herr
      cases llm with
      | error e => simp at herr
      | ok raw =>
        simp only at herr
        cases hel : extractAndLoad raw with
        | error e =>
          rw [parseAudit_error raw e hel] at herr
          simp at herr
        | ok j =>
          cases j with
          | obj fields => exact Or.inr ⟨raw, fields, rfl, hel⟩
          | null =>
            rw [parseAudit_nonobj raw _ hel (by intro f h; cases h)] at herr
            simp at herr
          | bool b =>
            rw [parseAudit_nonobj raw _ hel (by intro f h; cases h)] at herr
            simp at herr
          | num l =>
            rw [parseAudit_nonobj raw _ hel (by intro f h; cases h)] at herr
            simp at herr
          | str s2 =>
            rw [parseAudit_nonobj raw _ hel (by intro f h; cases h)] at herr
            simp at herr
          | arr es =>
            rw [parseAudit_nonobj raw _ hel (by intro f h; cases h)] at herr
            simp at herr
  · intro e he ht
    rw [audit_node_run s llm ht, he]
    exact ⟨rfl, rfl⟩

/-- Witness for the amended C9: a model-invocation failure on a non-empty
transcript records exactly the exception message and FAIL. -/
theorem claim_C9_amended_witness :
    (audit_content_node stateT (Except.error boomChars)).update.errors = [boomChars] ∧
    (audit_content_node stateT (Except.error boomChars)).update.final_status
        = some (Json.str failChars) :=
  (claim_C9_amended_error_accounting env0 stateT (Except.error boomChars)).2.2
    boomChars rfl (by decide)

/-- C6: in every state reachable by running the pipeline from an entry
state with empty `errors`, whenever the final `errors` is non-empty, or the
model response parsed successfully as an object whose `status` field (with
FAIL default) is FAIL, the final `final_status` is FAIL. -/
theorem claim_C6_fail_invariant (env : IndexerEnv) (llm : Except Str Str)
    (s0 : AuditState) (h0 : s0.errors = []) :
    ((runPipeline env llm s0).errors ≠ [] →
      (runPipeline env llm s0).final_status = some (Json.str failChars)) ∧
    (∀ raw fields, llm = Except.ok raw →
      extractAndLoad raw = Except.ok (Json.obj fields) →
      dictGet fields statusKey (Json.str failChars) = Json.str failChars →
      (runPipeline env llm s0).final_status = some (Json.str failChars)) := by
  cases hidx : indexChain env s0 with
  | error e =>
    rw [runPipeline_indexError env llm s0 e hidx]
    exact ⟨fun _ => rfl, fun _ _ _ _ _ => rfl⟩
  | ok d =>
    by_cases ht : d.transcript = []
    · rw [runPipeline_okSkip env llm s0 d hidx ht]
      exact ⟨fun _ => rfl, fun _ _ _ _ _ => rfl⟩
    · cases llm with
      | error e =>
        rw [runPipeline_okRunErr env s0 d e hidx ht]
        constructor
        · intro _
          rfl
        · intro raw2 fields hraw _ _
          exact Except.noConfusion hraw
      | ok raw =>
        rw [runPipeline_okRunOk env s0 d raw hidx ht]
        cases hel : extractAndLoad raw with
        | error e2 =>
          rw [parseAudit_error raw e2 hel]
          constructor
          · intro _
            rfl
          · intro raw2 fields hraw hel2 _
            injection hraw with hh
            subst hh
            rw [hel] at hel2
            exact Except.noConfusion hel2
        | ok j =>
          cases j with
          | obj fields0 =>
            rw [parseAudit_obj raw fields0 hel]
            constructor
            · intro hne
              exact absurd (by simp [applyUpdate, h0]) hne
            · intro raw2 fields hraw hel2 hstat
              injection hraw with hh
              subst hh
              rw [hel] at hel2
              injection hel2 with hj
              injection hj with hf
              subst hf
              show some (dictGet fields0 statusKey (Json.str failChars))
                  = some (Json.str failChars)
              rw [hstat]
          | null =>
            rw [parseAudit_nonobj raw _ hel (by intro f hx; cases hx)]
            constructor
            · intro _
              rfl
            · intro raw2 fields hraw hel2 _
              injection hraw with hh
              subst hh
              rw [hel] at hel2
              injection hel2 with hj
              exact Json.noConfusion hj
          | bool b =>
            rw [parseAudit_nonobj raw _ hel (by intro f hx; cases hx)]
            constructor
            · intro _
              rfl
            · intro raw2 fields hraw hel2 _
              injection hraw with hh
              subst hh
              rw [hel] at hel2
              injection hel2 with hj
              exact Json.noConfusion hj
          | num l =>
            rw [parseAudit_nonobj raw _ hel (by intro f hx; cases hx)]
            constructor
            · intro _
              rfl
            · intro raw2 fields hraw hel2 _
              injection hraw with hh
              subst hh
              rw [hel] at hel2
              injection hel2 with hj
              exact Json.noConfusion hj
          | str s2 =>
            rw [parseAudit_nonobj raw _ hel (by intro f hx; cases hx)]
            constructor
            · intro _
              rfl
            · intro raw2 fields hraw hel2 _
              injection hraw with hh
              subst hh
              rw [hel] at hel2
              injection hel2 with hj
              exact Json.noConfusion hj
          | arr es =>
            rw [parseAudit_nonobj raw _ hel (by intro f hx; cases hx)]
            constructor
            · intro _
              rfl
            · intro raw2 fields hraw hel2 _
              injection hraw with hh
              subst hh
              rw [hel] at hel2
              injection hel2 with hj
              exact Json.noConfusion hj

/-- Witness for C6: a failing service constructor leaves a non-empty
`errors`, and the final status is FAIL. -/
theorem claim_C6_witness :
    (runPipeline envBad (Except.ok []) {}).final_status
        = some (Json.str failChars) :=
  (claim_C6_fail_invariant envBad (Except.ok []) {} rfl).1 (by decide)

/-- C10: for every model response containing the fence marker at exactly one
position (an unpaired fence), the Judgment-stage parser takes the error
branch — one entry recorded for `errors`, `final_status` FAIL — even when
the surrounding or whole text is valid JSON; no bare JSON parse of the raw
text is attempted once a fence marker is present. -/
theorem claim_C10_lone_fence_error_branch (raw : Str)
    (h : countOcc fenceChars raw = 1) :
    parseAudit raw =
      { errors := [attrGroupMsg], final_status := some (Json.str failChars) } := by
  have hin : pyIn fenceChars raw = true := pyIn_of_countOcc_ne_zero (by omega)
  have hre : reSearchFence raw = none := reSearchFence_none_of_one raw h
  have hel : extractAndLoad raw = Except.error attrGroupMsg := by
    unfold extractAndLoad extractContent
    rw [hin, hre]
    rfl
  exact parseAudit_error raw attrGroupMsg hel

/-- Witness for C10: a response that is valid JSON as a whole but contains
one fence marker inside a string literal still takes the error branch. -/
theorem claim_C10_witness :
    parseAudit c10Raw =
      { errors := [attrGroupMsg], final_status := some (Json.str failChars) } ∧
    (jsonLoads (pyStrip c10Raw)).isSome = true :=
  ⟨claim_C10_lone_fence_error_branch c10Raw (by decide), by decide⟩

end BrandCompliance
